import Mathlib

/-!
Verification development for the jupyter-server-proxy repository
(files src/jupyter_server_proxy/config.py,
src/jupyter_server_proxy/standalone/proxy.py,
src/jupyter_server_proxy/standalone/hub.py).

The Python fragments relevant to the claims are shallowly embedded below:
pure configuration-rendering code becomes Lean functions, exceptions become
Except, and the process-supervision state machine (whose implementation in
handlers.py is not part of the three source files) is modelled from the
specification where noted.
-/

/-- Left brace character (written via its code point). -/
def lbrace : Char := '\x7b'

/-- Right brace character (written via its code point). -/
def rbrace : Char := '\x7d'

mutual

/-- Model of a Python value, distinguishing exactly the cases that
config.py's rendering code distinguishes: `type(value) is str`,
`type(value) is list`, `type(value) is dict`, `callable(value)`, and
everything else.  A value of any other Python type (int, None, tuple, ...)
is represented by `other` carrying the name of its type; a callable is a
function of the single runtime parameter `port` (config.py passes
`process_args = dict with the single key port`). -/
inductive PyValue where
  | str (s : String)
  | list (xs : PyList)
  | dict (kvs : PyKVs)
  | callable (f : Nat → PyValue)
  | other (ty : String)

/-- Spine of a Python list of `PyValue`. -/
inductive PyList where
  | nil
  | cons (hd : PyValue) (tl : PyList)

/-- Spine of a Python dict of `PyValue` keys and values, in insertion
order, as Python dicts preserve it. -/
inductive PyKVs where
  | nil
  | cons (key val : PyValue) (tl : PyKVs)

end

/-- Conversion of the list spine to a Lean list. -/
def PyList.toList : PyList → List PyValue
  | .nil => []
  | .cons v tl => v :: tl.toList

/-- Conversion of the dict spine to a Lean association list. -/
def PyKVs.toList : PyKVs → List (PyValue × PyValue)
  | .nil => []
  | .cons k v tl => (k, v) :: tl.toList

/-- Number of entries of a Python dict. -/
def PyKVs.length (kvs : PyKVs) : Nat := kvs.toList.length

/-- Building a `PyList` from a Lean list. -/
def PyList.ofList : List PyValue → PyList
  | [] => .nil
  | v :: tl => .cons v (PyList.ofList tl)

/-- Building a `PyKVs` from a Lean association list. -/
def PyKVs.ofList : List (PyValue × PyValue) → PyKVs
  | [] => .nil
  | (k, v) :: tl => .cons k v (PyKVs.ofList tl)

mutual

/-- Python equality (`==`) restricted to the values the rendering code can
produce.  Two distinct callables are never equal (Python functions compare
by identity); strings compare as strings; lists and dicts compare
elementwise; `other` values compare by their tag. -/
def PyValue.beq : PyValue → PyValue → Bool
  | .str a, .str b => a == b
  | .list a, .list b => PyList.beq a b
  | .dict a, .dict b => PyKVs.beq a b
  | .other a, .other b => a == b
  | _, _ => false

def PyList.beq : PyList → PyList → Bool
  | .nil, .nil => true
  | .cons a atl, .cons b btl => PyValue.beq a b && PyList.beq atl btl
  | _, _ => false

def PyKVs.beq : PyKVs → PyKVs → Bool
  | .nil, .nil => true
  | .cons ak av atl, .cons bk bv btl =>
      PyValue.beq ak bk && PyValue.beq av bv && PyKVs.beq atl btl
  | _, _ => false

end

/-- Python dict insertion semantics, as used by a dict comprehension:
inserting key `k` with value `v` overwrites the value of an existing equal
key in place (keeping the original key object and its position); a new key
is appended at the end, preserving insertion order. -/
def PyKVs.insert (k v : PyValue) : PyKVs → PyKVs
  | .nil => .cons k v .nil
  | .cons k0 v0 tl =>
      if PyValue.beq k k0 then .cons k0 v tl
      else .cons k0 v0 (PyKVs.insert k v tl)

/-- Core loop of Python `str.format` restricted to the fragment the
configuration code uses: the keyword arguments are exactly
`\x7bport: p\x7d` (config.py line 23: `process_args` has the single key
`port`).  The first argument is `none` in ordinary text mode and
`some acc` while scanning a replacement-field name, with `acc` holding the
characters read so far in reverse.  `\x7b\x7b` and `\x7d\x7d` are the usual
escapes; a field named `port` is replaced by the decimal representation of
`p` (Python `str(int)`); any other field name raises (KeyError in Python),
as does an unterminated or stray brace. -/
def fmtAux (p : Nat) : Option (List Char) → List Char → Except String (List Char)
  | none, [] => .ok []
  | none, c :: rest =>
    if c = lbrace then
      match rest with
      | d :: rest2 =>
          if d = lbrace then (fun t => lbrace :: t) <$> fmtAux p none rest2
          else if d = rbrace then .error "KeyError: "
          else fmtAux p (some [d]) rest2
      | [] => .error "Single opening brace encountered in format string"
    else if c = rbrace then
      match rest with
      | d :: rest2 =>
          if d = rbrace then (fun t => rbrace :: t) <$> fmtAux p none rest2
          else .error "Single closing brace encountered in format string"
      | [] => .error "Single closing brace encountered in format string"
    else (fun t => c :: t) <$> fmtAux p none rest
  | some _, [] => .error "Single opening brace encountered in format string"
  | some acc, c :: rest =>
    if c = rbrace then
      if String.mk acc.reverse = "port" then
        (fun t => (Nat.repr p).data ++ t) <$> fmtAux p none rest
      else .error ("KeyError: " ++ String.mk acc.reverse)
    else fmtAux p (some (c :: acc)) rest

/-- `value.format(**process_args)` from config.py line 30, with
`process_args = \x7bport: p\x7d`. -/
def formatPort (p : Nat) (s : String) : Except String String :=
  String.mk <$> fmtAux p none s.data

mutual

/-- config.py lines 27-39, `_Proxy._render_template`:

    def render_template(self, value):
        args = self.process_args
        if type(value) is str: return value.format(args)
        elif type(value) is list: return [self.render_template(v) for v in value]
        elif type(value) is dict:
            return dict of (self.render_template(k), self.render_template(v))
                   for k, v in value.items()
        else: raise ValueError(Value of unrecognized type ...)

Note there is no branch for callables: a callable value reaching this
function falls into the final `else` and raises `ValueError`. -/
def render_template (p : Nat) : PyValue → Except String PyValue
  | .str s => PyValue.str <$> formatPort p s
  | .list xs => PyValue.list <$> renderList p xs
  | .dict kvs => PyValue.dict <$> renderKVs p .nil kvs
  | .callable _ => .error "Value of unrecognized type function"
  | .other ty => .error ("Value of unrecognized type " ++ ty)

/-- The list comprehension of `_render_template`: elements are rendered
left to right, the first exception propagating. -/
def renderList (p : Nat) : PyList → Except String PyList
  | .nil => .ok .nil
  | .cons v tl => do
      let r ← render_template p v
      let rs ← renderList p tl
      pure (.cons r rs)

/-- The dict comprehension of `_render_template`: items are processed in
insertion order, each rendered key/value pair being inserted into the dict
built so far (`acc`), so that two keys whose renderings are equal collapse
into one entry, the later value winning. -/
def renderKVs (p : Nat) (acc : PyKVs) : PyKVs → Except String PyKVs
  | .nil => .ok acc
  | .cons k v tl => do
      let rk ← render_template p k
      let rv ← render_template p v
      renderKVs p (acc.insert rk rv) tl

end

/-- config.py lines 41-45, `_Proxy.get_cmd`: a callable command is invoked
with the process args (the single keyword argument `port`) and its result
rendered; any other command value is rendered directly. -/
def get_cmd (p : Nat) (command : PyValue) : Except String PyValue :=
  match command with
  | .callable f => render_template p (f p)
  | c => render_template p c

/-- config.py lines 47-51, `_Proxy.get_env`: same shape as `get_cmd`. -/
def get_env (p : Nat) (environment : PyValue) : Except String PyValue :=
  match environment with
  | .callable f => render_template p (f p)
  | e => render_template p e

/-- Token view of a template string: a well-formed template is a sequence
of literal characters and `\x7bport\x7d` replacement fields. -/
inductive Tok where
  | lit (c : Char)
  | port
  deriving DecidableEq

/-- Well-formedness of a token: a literal character is not a brace (braces
occur only as part of replacement fields in a well-formed template). -/
def Tok.wf : Tok → Prop
  | .lit c => c ≠ lbrace ∧ c ≠ rbrace
  | .port => True

instance (t : Tok) : Decidable t.wf := by
  cases t <;> simp [Tok.wf] <;> infer_instance

/-- The characters a token contributes to the template string. -/
def Tok.flatten : Tok → List Char
  | .lit c => [c]
  | .port => [lbrace, 'p', 'o', 'r', 't', rbrace]

/-- The characters a token contributes to the rendered string: a `port`
field becomes the decimal representation of the assigned port. -/
def Tok.render (p : Nat) : Tok → List Char
  | .lit c => [c]
  | .port => (Nat.repr p).data

/-- Template string spelled by a token sequence. -/
def flattenToks (ts : List Tok) : List Char :=
  (ts.map Tok.flatten).flatten

/-- Rendering of a token sequence with assigned port `p`. -/
def renderToks (p : Nat) (ts : List Tok) : List Char :=
  (ts.map (Tok.render p)).flatten

/-- Process state of the supervised backend, following the state machine
of the specification (UNSTARTED, STARTING, READY, FAILED; the shutdown
states play no role in the claims below). -/
inductive ProcState where
  | unstarted
  | starting
  | ready
  | failed
  deriving DecidableEq

/-- Outcome observed by a request: the backend reached READY, or the start
failed with a BackendStartError. -/
inductive Outcome where
  | ready
  | backendStartError
  deriving DecidableEq

/-- Modelled from the spec: runtime state of the process supervisor for a
single service name (`SuperviseAndProxyHandler` in handlers.py, which is
not among the three source files).  `spawnCount` counts process spawns,
`waiting` holds the requests suspended on the in-flight start, and
`outcomes` records, in order, the outcome each request observed. -/
structure SupervisorState where
  proc : ProcState
  spawnCount : Nat
  waiting : List Nat
  outcomes : List (Nat × Outcome)
  deriving DecidableEq

/-- Events of the supervisor model: a request arrives (and calls
ensure_started), or the single in-flight start resolves (the readiness
poll succeeds or times out / the spawn fails). -/
inductive SupEvent where
  | arrive (rid : Nat)
  | resolve (ok : Bool)

/-- Initial supervisor state of a never-before-accessed service. -/
def supInit : SupervisorState :=
  { proc := .unstarted, spawnCount := 0, waiting := [], outcomes := [] }

/-- Modelled from the spec: one step of the supervisor state machine
(handlers.py is not among the source files).  Per the specification of
ensure_started: a request arriving at UNSTARTED (or after a failure, on
the next access) transitions to STARTING and spawns; a request arriving at
STARTING suspends without spawning; a request arriving at READY observes
READY immediately.  When the in-flight start resolves, every suspended
request observes the same outcome. -/
def supStep (s : SupervisorState) : SupEvent → SupervisorState
  | .arrive rid =>
    match s.proc with
    | .unstarted =>
        { s with proc := .starting, spawnCount := s.spawnCount + 1,
                 waiting := s.waiting ++ [rid] }
    | .starting => { s with waiting := s.waiting ++ [rid] }
    | .ready => { s with outcomes := s.outcomes ++ [(rid, .ready)] }
    | .failed =>
        { s with proc := .starting, spawnCount := s.spawnCount + 1,
                 waiting := s.waiting ++ [rid] }
  | .resolve ok =>
    match s.proc with
    | .starting =>
        { s with proc := if ok then .ready else .failed,
                 waiting := [],
                 outcomes := s.outcomes ++
                   s.waiting.map
                     (fun r => (r, if ok then Outcome.ready else Outcome.backendStartError)) }
    | _ => s

/-- Run of the supervisor model over a sequence of events, from the
initial state of a never-before-accessed service. -/
def supRun (events : List SupEvent) : SupervisorState :=
  events.foldl supStep supInit

/-- config.py line 83 (`LauncherEntry` namedtuple). -/
structure LauncherEntry where
  enabled : Bool
  icon_path : Option String
  title : String

/-- config.py line 84 (`ServerProcess` namedtuple): the immutable
declaration of one proxied service. -/
structure ServerProcess where
  name : String
  command : PyValue
  environment : PyValue
  launcher_entry : Option LauncherEntry

/-- Kinds of tornado handlers registered by the code under scrutiny.  A
supervise-and-proxy route carries the service name and the identity of the
fresh state dict the route was registered with (`dict(state=\x7b\x7d)` in
make_handlers allocates a new dict per registration; object identity is
modelled by an allocation counter). -/
inductive HandlerKind where
  | superviseProxy (name : String) (stateId : Nat)
  | addSlash
  | redirect (url : String)
  | oauthCallback
  | standaloneProxy (stateId : Nat)
  deriving DecidableEq

/-- One tornado routing-table entry: a pattern and the handler bound to
it. -/
structure Route where
  pattern : String
  kind : HandlerKind
  deriving DecidableEq

/-- Whether a string starts with a slash (Python `s.startswith(sep)` for
a single slash). -/
def startsWithSlash (s : String) : Bool :=
  match s.data with
  | c :: _ => c = '/'
  | [] => false

/-- Whether a string ends with a slash (Python `s.endswith(sep)` for a
single slash). -/
def endsWithSlash (s : String) : Bool :=
  match s.data.getLast? with
  | some c => c = '/'
  | none => false

/-- Python `s.strip(sep)` for a single slash: remove every leading and
trailing slash. -/
def stripSlashes (s : String) : String :=
  String.mk (((s.data.dropWhile (fun c => c = '/')).reverse.dropWhile
    (fun c => c = '/')).reverse)

/-- Python `sep.join(pieces)` for the slash separator. -/
def joinSlash : List String → String
  | [] => ""
  | [s] => s
  | s :: rest => s ++ "/" ++ joinSlash rest

/-- notebook.utils.url_path_join (the external helper config.py imports as
`ujoin`):

    initial = pieces[0].startswith(sep)
    final = pieces[-1].endswith(sep)
    stripped = [s.strip(sep) for s in pieces]
    result = sep.join(s for s in stripped if s)
    if initial: result = sep + result
    if final: result = result + sep
    if result == sep + sep: result = sep
    return result
-/
def url_path_join (pieces : List String) : String :=
  let initial := match pieces.head? with
    | some s => startsWithSlash s
    | none => false
  let final := match pieces.getLast? with
    | some s => endsWithSlash s
    | none => false
  let stripped := (pieces.map stripSlashes).filter (fun s => s ≠ "")
  let result := joinSlash stripped
  let result := if initial then "/" ++ result else result
  let result := if final then result ++ "/" else result
  if result = "//" then "/" else result

/-- config.py lines 64-81, `make_handlers`, with an explicit allocation
counter `c` modelling the identity of the fresh `dict(state=\x7b\x7d)`
created for each supervise-and-proxy route; the function returns the
handler list together with the next fresh identity.  For every server
process two entries are appended, in order: the pattern
`ujoin(base_url, sp.name, (.*))` bound to the generated
supervise-and-proxy handler with its fresh state dict, and the pattern
`ujoin(base_url, sp.name)` bound to `AddSlashHandler`. -/
def make_handlers_aux (base_url : String) (c : Nat) :
    List ServerProcess → List Route × Nat
  | [] => ([], c)
  | sp :: rest =>
    let tail := make_handlers_aux base_url (c + 1) rest
    (⟨url_path_join [base_url, sp.name, "(.*)"], .superviseProxy sp.name c⟩ ::
     ⟨url_path_join [base_url, sp.name], .addSlash⟩ :: tail.1, tail.2)

/-- config.py `make_handlers` with allocation starting at 0. -/
def make_handlers (base_url : String) (sps : List ServerProcess) : List Route :=
  (make_handlers_aux base_url 0 sps).1

/-- State-dict identities of the supervise-and-proxy routes of a handler
list, in order. -/
def proxyStateIds (rs : List Route) : List Nat :=
  rs.filterMap (fun r =>
    match r.kind with
    | .superviseProxy _ i => some i
    | _ => none)

/-- Modelled from the spec: `AddSlashHandler` (handlers.py, which is not
among the three source files) responds to a request for the bare service
path with a redirect to the same path followed by a trailing slash. -/
def addSlashRedirectTarget (uri : String) : String := uri ++ "/"

/-- The characters Python `re.escape` escapes (CPython 3.7 and later
escapes exactly the characters of its special-characters map; every other
character is passed through unchanged). -/
def reSpecialChars : List Char :=
  ['(', ')', '[', ']', '\x7b', '\x7d', '?', '*', '+', '-', '|', '^', '$',
   '\\', '.', '&', '~', '#', ' ', '\t', '\n', '\r', '\x0b', '\x0c']

/-- Python `re.escape`: every special character is preceded by a
backslash. -/
def reEscape (s : String) : String :=
  String.mk ((s.data.map
    (fun c => if c ∈ reSpecialChars then ['\\', c] else [c])).flatten)

/-- standalone/proxy.py lines 246-271, `StandaloneProxyServer._create_app`
(routing table only; `base_url = re.escape(self.base_url)` is computed
first and then used both in the patterns and, notably, inside the redirect
target `url = base_url + /`):

    (^base_url$, web.RedirectHandler, dict(url=base_url + /)),
    (^base_url/oauth_callback, HubOAuthCallbackHandler),
    (^base_url/(.*), StandaloneHubProxyHandler, dict(..., state=\x7b\x7d)).
-/
def create_app_routes (base_url : String) (stateId : Nat) : List Route :=
  let b := reEscape base_url
  [⟨"^" ++ b ++ "$", .redirect (b ++ "/")⟩,
   ⟨"^" ++ b ++ "/oauth_callback", .oauthCallback⟩,
   ⟨"^" ++ b ++ "/(.*)", .standaloneProxy stateId⟩]

/-- ssl_options dictionary built by
`StandaloneProxyServer._configure_ssl`. -/
structure SslOptions where
  keyfile : Option String
  certfile : Option String
  ca_certs : Option String
  ssl_version : String
  cert_reqs_required : Bool
  deriving DecidableEq

/-- standalone/proxy.py lines 273-301,
`StandaloneProxyServer._configure_ssl`.  The three environment variables
default to the empty string when unset; the function returns None (and
only logs a warning) when none of the three is set, and otherwise builds
the ssl_options dictionary from exactly the provided files, requiring
client certificates exactly when a client CA was given. -/
def configure_ssl_standalone (keyfile certfile client_ca : String) :
    Option SslOptions :=
  if keyfile = "" ∧ certfile = "" ∧ client_ca = "" then none
  else some
    { keyfile := if keyfile = "" then none else some keyfile
      certfile := if certfile = "" then none else some certfile
      ca_certs := if client_ca = "" then none else some client_ca
      ssl_version := "PROTOCOL_TLS"
      cert_reqs_required := client_ca ≠ "" }

/-- Python truthiness of `os.environ.get(name)`: None (unset) and the
empty string are falsy. -/
def envTruthy : Option String → Bool
  | some s => s ≠ ""
  | none => false

/-- standalone/hub.py lines 38-52, `configure_ssl`.  The three environment
variables default to None when unset; the function returns None (TLS
disabled, warning logged) unless all three of keyfile, certfile and client
CA are truthy, in which case the SSL context is built from the three
files. -/
def configure_ssl (keyfile certfile cafile : Option String) :
    Option (String × String × String) :=
  if envTruthy keyfile && envTruthy certfile && envTruthy cafile then
    some (keyfile.getD "", certfile.getD "", cafile.getD "")
  else none

/-- Response produced by a proxy handler for one inbound request. -/
inductive ProxyResponse where
  | backend (port : Nat) (path : String)
  | authRequired
  deriving DecidableEq

/-- Result of one inbound request: whether the supervised backend was
started/contacted while producing the response, and the response
itself. -/
structure ProxyResult where
  backendContacted : Bool
  response : ProxyResponse
  deriving DecidableEq

/-- Modelled from the spec: `SuperviseAndProxyHandler.proxy` (handlers.py,
not among the three source files) ensures the backend process is started
and forwards the request to it; it is the unique operation of the handler
that starts or contacts the backend. -/
def superProxy (port : Nat) (path : String) : ProxyResult :=
  { backendContacted := true, response := .backend port path }

/-- Semantics of tornado's `web.authenticated` decorator (external
dependency): the wrapped method runs only when the request carries an
authenticated user; otherwise the handler responds with an
authentication-required response (a redirect to the login URL or HTTP 403)
and the wrapped method is never invoked. -/
def web_authenticated (authorized : Bool) (method : ProxyResult) : ProxyResult :=
  if authorized then method
  else { backendContacted := false, response := .authRequired }

/-- standalone/proxy.py lines 78-80,
`StandaloneHubProxyHandler.oauth_proxy`: the parent proxy method guarded
by `web.authenticated`. -/
def oauth_proxy (authorized : Bool) (port : Nat) (path : String) : ProxyResult :=
  web_authenticated authorized (superProxy port path)

/-- standalone/proxy.py lines 72-76, `StandaloneHubProxyHandler.proxy`:
with skip_authentication the request goes straight to the parent proxy
method; otherwise it goes through the authenticated `oauth_proxy`. -/
def StandaloneHubProxyHandler_proxy (skip_authentication authorized : Bool)
    (port : Nat) (path : String) : ProxyResult :=
  if skip_authentication then superProxy port path
  else oauth_proxy authorized port path

/-- standalone/hub.py lines 30-32, `StandaloneHubProxyHandler.proxy` of
the hub module: the parent proxy method guarded by `web.authenticated`,
with no skip option. -/
def hub_StandaloneHubProxyHandler_proxy (authorized : Bool) (port : Nat)
    (path : String) : ProxyResult :=
  web_authenticated authorized (superProxy port path)

mutual

/-- Whether a Python value contains a callable anywhere, the value itself
included. -/
def PyValue.containsCallable : PyValue → Bool
  | .callable _ => true
  | .list xs => PyList.containsCallable xs
  | .dict kvs => PyKVs.containsCallable kvs
  | .str _ => false
  | .other _ => false

def PyList.containsCallable : PyList → Bool
  | .nil => false
  | .cons v tl => PyValue.containsCallable v || PyList.containsCallable tl

def PyKVs.containsCallable : PyKVs → Bool
  | .nil => false
  | .cons k v tl =>
      PyValue.containsCallable k || PyValue.containsCallable v ||
        PyKVs.containsCallable tl

end

/-- Concatenation of two dict spines. -/
def PyKVs.append : PyKVs → PyKVs → PyKVs
  | .nil, r => r
  | .cons k v tl, r => .cons k v (tl.append r)

/-! Helper lemmas. -/

theorem flattenToks_cons (t : Tok) (ts : List Tok) :
    flattenToks (t :: ts) = t.flatten ++ flattenToks ts := rfl

theorem renderToks_cons (p : Nat) (t : Tok) (ts : List Tok) :
    renderToks p (t :: ts) = t.render p ++ renderToks p ts := rfl

theorem fmtAux_flattenToks (p : Nat) :
    ∀ ts : List Tok, (∀ t ∈ ts, Tok.wf t) →
      fmtAux p none (flattenToks ts) = Except.ok (renderToks p ts) := by
  intro ts
  induction ts with
  | nil => intro _; rfl
  | cons t ts ih =>
    intro h
    have hts : ∀ u ∈ ts, Tok.wf u := fun u hu => h u (List.mem_cons_of_mem _ hu)
    have ht : Tok.wf t := h t (List.mem_cons_self _ _)
    cases t with
    | port =>
      have hstep : fmtAux p none (flattenToks (Tok.port :: ts)) =
          (fun u => (Nat.repr p).data ++ u) <$> fmtAux p none (flattenToks ts) := rfl
      rw [hstep, ih hts]
      rfl
    | lit c =>
      obtain ⟨hc1, hc2⟩ := ht
      rw [flattenToks_cons]
      have hstep : fmtAux p none (Tok.flatten (Tok.lit c) ++ flattenToks ts) =
          (fun u => c :: u) <$> fmtAux p none (flattenToks ts) := by
        show fmtAux p none (c :: flattenToks ts) = _
        rw [fmtAux.eq_def]
        simp only []
        rw [if_neg hc1, if_neg hc2]
      rw [hstep, ih hts]
      rfl

theorem formatPort_flattenToks (p : Nat) (ts : List Tok)
    (h : ∀ t ∈ ts, Tok.wf t) :
    formatPort p (String.mk (flattenToks ts)) =
      Except.ok (String.mk (renderToks p ts)) := by
  show String.mk <$> fmtAux p none (flattenToks ts) = _
  rw [fmtAux_flattenToks p ts h]
  rfl

theorem render_template_str_tokens (p : Nat) (ts : List Tok)
    (h : ∀ t ∈ ts, Tok.wf t) :
    render_template p (PyValue.str (String.mk (flattenToks ts))) =
      Except.ok (PyValue.str (String.mk (renderToks p ts))) := by
  show PyValue.str <$> formatPort p (String.mk (flattenToks ts)) = _
  rw [formatPort_flattenToks p ts h]
  rfl

theorem supStep_arrives (rs : List Nat) :
    ∀ s : SupervisorState, s.proc = ProcState.starting →
      List.foldl supStep s (rs.map SupEvent.arrive) =
        { s with waiting := s.waiting ++ rs } := by
  induction rs with
  | nil => intro s _; simp
  | cons r rs ih =>
    intro s hs
    have h1 : supStep s (SupEvent.arrive r) = { s with waiting := s.waiting ++ [r] } := by
      unfold supStep
      rw [hs]
    rw [List.map_cons, List.foldl_cons, h1,
      ih { s with waiting := s.waiting ++ [r] } hs]
    simp

/-- C1: in the supervisor model (modelled from the spec, handlers.py not
being among the source files), when N >= 1 concurrent first requests
arrive at a never-before-accessed service before the single in-flight
start resolves, exactly one process spawn occurs and every request
observes the same outcome: READY when the start succeeds, the same
BackendStartError when it fails; none of the requests triggers a second
spawn. -/
theorem C1_single_spawn_uniform_outcome (rids : List Nat) (ok : Bool)
    (h : rids ≠ []) :
    (supRun (rids.map SupEvent.arrive ++ [SupEvent.resolve ok])).spawnCount = 1 ∧
    (supRun (rids.map SupEvent.arrive ++ [SupEvent.resolve ok])).outcomes =
      rids.map (fun r => (r, if ok then Outcome.ready else Outcome.backendStartError)) := by
  match rids, h with
  | r :: rs, _ =>
    unfold supRun
    rw [List.map_cons, List.foldl_append]
    have h0 : supStep supInit (SupEvent.arrive r) =
        { proc := ProcState.starting, spawnCount := 1, waiting := [r],
          outcomes := [] } := rfl
    have hinner : List.foldl supStep supInit
        (SupEvent.arrive r :: List.map SupEvent.arrive rs) =
        { proc := ProcState.starting, spawnCount := 1, waiting := [r] ++ rs,
          outcomes := [] } := by
      rw [List.foldl_cons, h0, supStep_arrives rs _ rfl]
    rw [hinner]
    exact ⟨rfl, rfl⟩

/-- Witness for C1 at three concurrent first requests and a successful
start. -/
theorem C1_single_spawn_uniform_outcome_witness :
    ([0, 1, 2] : List Nat) ≠ [] ∧
    ((supRun ([0, 1, 2].map SupEvent.arrive ++ [SupEvent.resolve true])).spawnCount = 1 ∧
     (supRun ([0, 1, 2].map SupEvent.arrive ++ [SupEvent.resolve true])).outcomes =
       [0, 1, 2].map (fun r => (r, if true then Outcome.ready else Outcome.backendStartError))) :=
  ⟨by decide, C1_single_spawn_uniform_outcome [0, 1, 2] true (by decide)⟩

/-- C2: with skip_authentication off, a request denied by the
authentication decorator receives an authentication-required response and
the parent proxy method, the unique operation that starts or contacts the
backend, is never invoked: the result records no backend contact.  This
holds for the standalone handler (standalone/proxy.py, which routes the
request through `oauth_proxy` guarded by web.authenticated) and for the
hub-module handler (standalone/hub.py, whose `proxy` is itself
guarded). -/
theorem C2_deny_no_backend_contact (port : Nat) (path : String) :
    StandaloneHubProxyHandler_proxy false false port path =
      { backendContacted := false, response := ProxyResponse.authRequired } ∧
    hub_StandaloneHubProxyHandler_proxy false port path =
      { backendContacted := false, response := ProxyResponse.authRequired } :=
  ⟨rfl, rfl⟩

/-- C3: with skip_authentication on, `StandaloneHubProxyHandler.proxy`
forwards every request directly to the parent proxy method, whatever the
authorization status of the caller: the backend is contacted and the
backend response returned. -/
theorem C3_skip_authentication_reaches_backend (authorized : Bool)
    (port : Nat) (path : String) :
    StandaloneHubProxyHandler_proxy true authorized port path = superProxy port path ∧
    (superProxy port path).backendContacted = true ∧
    (superProxy port path).response = ProxyResponse.backend port path :=
  ⟨rfl, rfl, rfl⟩

/-- C7 counterexample: the hub module's `configure_ssl`
(standalone/hub.py) returns None, disabling TLS, even though one of the
three files (the key file) is provided, contradicting the claim that SSL
options are built whenever at least one of the three paths is present. -/
theorem C7_counterexample :
    envTruthy (some "key.pem") = true ∧
    configure_ssl (some "key.pem") none none = none :=
  ⟨rfl, rfl⟩

/-- C7 (amended): `StandaloneProxyServer._configure_ssl`
(standalone/proxy.py) disables TLS, returning None with only a logged
warning, exactly when all three of the key file, certificate file and
client CA paths are absent, and otherwise builds ssl_options from exactly
the provided files (requiring client certificates exactly when a client CA
is given); the hub module's `configure_ssl` (standalone/hub.py) instead
returns None unless all three files are present, and builds the SSL
context from the three files only when all three are given. -/
theorem C7_ssl_disabled_conditions :
    (∀ keyfile certfile client_ca : String,
      configure_ssl_standalone keyfile certfile client_ca = none ↔
        (keyfile = "" ∧ certfile = "" ∧ client_ca = "")) ∧
    (∀ keyfile certfile client_ca : String,
      ¬(keyfile = "" ∧ certfile = "" ∧ client_ca = "") →
      configure_ssl_standalone keyfile certfile client_ca = some
        { keyfile := if keyfile = "" then none else some keyfile
          certfile := if certfile = "" then none else some certfile
          ca_certs := if client_ca = "" then none else some client_ca
          ssl_version := "PROTOCOL_TLS"
          cert_reqs_required := client_ca ≠ "" }) ∧
    (∀ keyfile certfile cafile : Option String,
      configure_ssl keyfile certfile cafile = none ↔
        (envTruthy keyfile && envTruthy certfile && envTruthy cafile) = false) ∧
    (∀ keyfile certfile cafile : Option String,
      envTruthy keyfile = true → envTruthy certfile = true →
      envTruthy cafile = true →
      configure_ssl keyfile certfile cafile =
        some (keyfile.getD "", certfile.getD "", cafile.getD "")) := by
  refine ⟨?_, ?_, ?_, ?_⟩
  · intro k c ca
    by_cases h : (k = "" ∧ c = "" ∧ ca = "")
    · simp [configure_ssl_standalone, h]
    · simp [configure_ssl_standalone, h]
  · intro k c ca h
    simp [configure_ssl_standalone, h]
  · intro k c ca
    cases hb : (envTruthy k && envTruthy c && envTruthy ca) <;>
      simp [configure_ssl, hb]
  · intro k c ca hk hc hca
    simp [configure_ssl, hk, hc, hca]

/-- Witness for C7 (amended) at one provided file for the standalone
variant and all three provided for the hub variant. -/
theorem C7_ssl_disabled_conditions_witness :
    (¬(("key.pem" : String) = "" ∧ ("" : String) = "" ∧ ("" : String) = "") ∧
      configure_ssl_standalone "key.pem" "" "" = some
        { keyfile := some "key.pem", certfile := none, ca_certs := none,
          ssl_version := "PROTOCOL_TLS", cert_reqs_required := false }) ∧
    (envTruthy (some "k") = true ∧
      configure_ssl (some "k") (some "c") (some "ca") = some ("k", "c", "ca")) := by
  constructor
  · refine ⟨by decide, ?_⟩
    have h := C7_ssl_disabled_conditions.2.1 "key.pem" "" "" (by decide)
    simpa using h
  · refine ⟨rfl, ?_⟩
    exact C7_ssl_disabled_conditions.2.2.2 (some "k") (some "c") (some "ca") rfl rfl rfl

theorem make_handlers_aux_stateIds (b : String) :
    ∀ (sps : List ServerProcess) (c : Nat),
      proxyStateIds (make_handlers_aux b c sps).1 = List.range' c sps.length ∧
      (make_handlers_aux b c sps).2 = c + sps.length := by
  intro sps
  induction sps with
  | nil => intro c; exact ⟨rfl, rfl⟩
  | cons sp rest ih =>
    intro c
    constructor
    · show proxyStateIds
        (⟨url_path_join [b, sp.name, "(.*)"], .superviseProxy sp.name c⟩ ::
         ⟨url_path_join [b, sp.name], .addSlash⟩ ::
         (make_handlers_aux b (c + 1) rest).1) = _
      simp only [List.length_cons]
      rw [List.range'_succ]
      simp only [proxyStateIds, List.filterMap_cons]
      have hrest := (ih (c + 1)).1
      simp only [proxyStateIds] at hrest
      rw [hrest]
    · show (make_handlers_aux b (c + 1) rest).2 = c + (rest.length + 1)
      rw [(ih (c + 1)).2]
      omega

/-- C10: every supervise-and-proxy route of `make_handlers` receives its
own freshly allocated state dict (`dict(state=\x7b\x7d)` allocates per
iteration; identities are modelled by the allocation counter threaded
through `make_handlers_aux`): within one call the state-dict identities
are pairwise distinct, and the identities of a second call continuing from
the first call's allocator are disjoint from those of the first, so no
state is shared between the handlers of two different server processes. -/
theorem C10_state_dicts_distinct (b1 b2 : String)
    (sps1 sps2 : List ServerProcess) (c : Nat) :
    (proxyStateIds (make_handlers b1 sps1)).Nodup ∧
    (proxyStateIds (make_handlers_aux b1 c sps1).1).Nodup ∧
    (proxyStateIds (make_handlers_aux b2 (make_handlers_aux b1 c sps1).2 sps2).1).Nodup ∧
    (proxyStateIds (make_handlers_aux b1 c sps1).1).Disjoint
      (proxyStateIds (make_handlers_aux b2 (make_handlers_aux b1 c sps1).2 sps2).1) := by
  have h1 := make_handlers_aux_stateIds b1 sps1 c
  have h0 := make_handlers_aux_stateIds b1 sps1 0
  have h2 := make_handlers_aux_stateIds b2 sps2 (make_handlers_aux b1 c sps1).2
  refine ⟨?_, ?_, ?_, ?_⟩
  · rw [show make_handlers b1 sps1 = (make_handlers_aux b1 0 sps1).1 from rfl, h0.1]
    exact List.nodup_range' _ _
  · rw [h1.1]
    exact List.nodup_range' _ _
  · rw [h2.1]
    exact List.nodup_range' _ _
  · rw [h1.1, h2.1, h1.2]
    intro a ha1 ha2
    rw [List.mem_range'_1] at ha1 ha2
    omega

theorem exceptBind_ok {α β : Type} (x : α) (f : α → Except String β) :
    (Except.ok x >>= f) = f x := rfl

theorem exceptBind_error {α β : Type} (e : String) (f : α → Except String β) :
    ((Except.error e : Except String α) >>= f) = Except.error e := rfl

mutual

theorem pyValue_containsCallable_error (p : Nat) :
    ∀ v : PyValue, PyValue.containsCallable v = true →
      ∃ m, render_template p v = Except.error m
  | .callable _, _ => ⟨"Value of unrecognized type function", rfl⟩
  | .str _, h => by simp [PyValue.containsCallable] at h
  | .other _, h => by simp [PyValue.containsCallable] at h
  | .list xs, h => by
      obtain ⟨m, hm⟩ := pyList_containsCallable_error p xs h
      exact ⟨m, by show PyValue.list <$> renderList p xs = _; rw [hm]; rfl⟩
  | .dict kvs, h => by
      obtain ⟨m, hm⟩ := pyKVs_containsCallable_error p kvs h PyKVs.nil
      exact ⟨m, by show PyValue.dict <$> renderKVs p .nil kvs = _; rw [hm]; rfl⟩

theorem pyList_containsCallable_error (p : Nat) :
    ∀ xs : PyList, PyList.containsCallable xs = true →
      ∃ m, renderList p xs = Except.error m
  | .nil, h => by simp [PyList.containsCallable] at h
  | .cons v tl, h => by
      cases hv : render_template p v with
      | error m => exact ⟨m, by simp [renderList, hv, exceptBind_error]⟩
      | ok r =>
        have hvc : PyValue.containsCallable v = false := by
          cases hvc : PyValue.containsCallable v
          · rfl
          · obtain ⟨m, hm⟩ := pyValue_containsCallable_error p v hvc
            rw [hm] at hv
            cases hv
        have htl : PyList.containsCallable tl = true := by
          have h2 : (PyValue.containsCallable v || PyList.containsCallable tl) = true := h
          rw [hvc] at h2
          simpa using h2
        obtain ⟨m, hm⟩ := pyList_containsCallable_error p tl htl
        exact ⟨m, by simp [renderList, hv, hm, exceptBind_ok, exceptBind_error]⟩

theorem pyKVs_containsCallable_error (p : Nat) :
    ∀ kvs : PyKVs, PyKVs.containsCallable kvs = true →
      ∀ acc, ∃ m, renderKVs p acc kvs = Except.error m
  | .nil, h => by simp [PyKVs.containsCallable] at h
  | .cons k v tl, h => by
      intro acc
      cases hk : render_template p k with
      | error m => exact ⟨m, by simp [renderKVs, hk, exceptBind_error]⟩
      | ok rk =>
        have hkc : PyValue.containsCallable k = false := by
          cases hkc : PyValue.containsCallable k
          · rfl
          · obtain ⟨m, hm⟩ := pyValue_containsCallable_error p k hkc
            rw [hm] at hk
            cases hk
        cases hv : render_template p v with
        | error m => exact ⟨m, by simp [renderKVs, hk, hv, exceptBind_ok, exceptBind_error]⟩
        | ok rv =>
          have hvc : PyValue.containsCallable v = false := by
            cases hvc : PyValue.containsCallable v
            · rfl
            · obtain ⟨m, hm⟩ := pyValue_containsCallable_error p v hvc
              rw [hm] at hv
              cases hv
          have htl : PyKVs.containsCallable tl = true := by
            have h2 : (PyValue.containsCallable k || PyValue.containsCallable v ||
                PyKVs.containsCallable tl) = true := h
            rw [hkc, hvc] at h2
            simpa using h2
          obtain ⟨m, hm⟩ :=
            pyKVs_containsCallable_error p tl htl (acc.insert rk rv)
          exact ⟨m, by simp [renderKVs, hk, hv, hm, exceptBind_ok, exceptBind_error]⟩

end

/-- C5 counterexample: a command list containing a callable element.  The
claim says every callable value, at any nesting depth, is invoked and its
return value recursively rendered, which would yield the fully-resolved
list containing the string "served"; the code instead rejects the nested
callable with a ValueError, because `_render_template` has no callable
branch and only `get_cmd`/`get_env` check the top-level value for
callability. -/
theorem C5_counterexample :
    get_cmd 8081 (PyValue.list
        (PyList.cons (PyValue.callable fun _ => PyValue.str "served") PyList.nil)) =
      Except.error "Value of unrecognized type function" := rfl

/-- C5 (amended): rendering invokes a callable configuration value only at
top level — `get_cmd` and `get_env` invoke it with the parameter set (the
single keyword argument `port`) and recursively render its return value —
while a callable anywhere inside the value (in a list or dict, at any
depth) makes rendering fail with a ValueError instead of being invoked. -/
theorem C5_toplevel_callable_only :
    (∀ (p : Nat) (f : Nat → PyValue),
      get_cmd p (PyValue.callable f) = render_template p (f p) ∧
      get_env p (PyValue.callable f) = render_template p (f p)) ∧
    (∀ (p : Nat) (v : PyValue), PyValue.containsCallable v = true →
      ∃ m, render_template p v = Except.error m) :=
  ⟨fun _ _ => ⟨rfl, rfl⟩,
   fun p v h => pyValue_containsCallable_error p v h⟩

/-- Witness for C5 (amended) at a list that contains a callable. -/
theorem C5_toplevel_callable_only_witness :
    PyValue.containsCallable (PyValue.list
        (PyList.cons (PyValue.callable fun _ => PyValue.str "served") PyList.nil)) = true ∧
    ∃ m, render_template 8081 (PyValue.list
        (PyList.cons (PyValue.callable fun _ => PyValue.str "served") PyList.nil)) =
      Except.error m :=
  ⟨rfl, C5_toplevel_callable_only.2 8081
    (PyValue.list (PyList.cons (PyValue.callable fun _ => PyValue.str "served") PyList.nil))
    rfl⟩

theorem make_handlers_aux_length (b : String) :
    ∀ (sps : List ServerProcess) (c : Nat),
      (make_handlers_aux b c sps).1.length = 2 * sps.length := by
  intro sps
  induction sps with
  | nil => intro c; rfl
  | cons sp rest ih =>
    intro c
    show (_ :: _ :: (make_handlers_aux b (c + 1) rest).1).length = _
    simp only [List.length_cons, List.length_cons, ih (c + 1)]
    omega

/-- C6 counterexample: registration is not where an unsupported
configuration value is rejected.  A service whose command is an int
registers without complaint — `make_handlers` produces its two routes,
never inspecting the command — while rendering that command (which happens
when the process is started, on the first request) raises the ValueError.
This contradicts the claim that the rejection is fatal at service
registration rather than deferred to request time. -/
theorem C6_counterexample :
    (make_handlers "/"
        [{ name := "svc", command := PyValue.other "int",
           environment := PyValue.dict PyKVs.nil,
           launcher_entry := none }]).length = 2 ∧
    get_cmd 8081 (PyValue.other "int") =
      Except.error "Value of unrecognized type int" :=
  ⟨rfl, rfl⟩

/-- C6 (amended): a configuration value of a type other than str, list or
dict (callables included, when encountered by the renderer below top
level) is rejected with a ValueError carrying the unrecognized type; the
rejection happens when the command or environment is rendered for process
startup, not at service registration: `make_handlers` registers two routes
per server process whatever the command and environment hold, performing
no validation. -/
theorem C6_template_error_at_render_time :
    (∀ (p : Nat) (ty : String),
      render_template p (PyValue.other ty) =
        Except.error ("Value of unrecognized type " ++ ty)) ∧
    (∀ (p : Nat) (f : Nat → PyValue),
      render_template p (PyValue.callable f) =
        Except.error "Value of unrecognized type function") ∧
    (∀ (base_url : String) (sps : List ServerProcess),
      (make_handlers base_url sps).length = 2 * sps.length) :=
  ⟨fun _ _ => rfl, fun _ _ => rfl,
   fun base_url sps => make_handlers_aux_length base_url sps 0⟩

theorem exceptPure {α : Type} (x : α) :
    (pure x : Except String α) = Except.ok x := rfl

theorem PyKVs.length_cons (k v : PyValue) (tl : PyKVs) :
    (PyKVs.cons k v tl).length = tl.length + 1 := rfl

theorem PyKVs.toList_append : ∀ a b : PyKVs,
    (PyKVs.append a b).toList = a.toList ++ b.toList
  | .nil, _ => rfl
  | .cons k v tl, b => by
      show (k, v) :: (PyKVs.append tl b).toList = ((k, v) :: tl.toList) ++ b.toList
      rw [PyKVs.toList_append tl b]
      rfl

theorem PyKVs.append_nil : ∀ a : PyKVs, PyKVs.append a PyKVs.nil = a
  | .nil => rfl
  | .cons k v tl => by
      show PyKVs.cons k v (PyKVs.append tl PyKVs.nil) = PyKVs.cons k v tl
      rw [PyKVs.append_nil tl]

theorem PyKVs.append_assoc : ∀ a b c : PyKVs,
    PyKVs.append (PyKVs.append a b) c = PyKVs.append a (PyKVs.append b c)
  | .nil, _, _ => rfl
  | .cons k v tl, b, c => by
      show PyKVs.cons k v (PyKVs.append (PyKVs.append tl b) c) = _
      rw [PyKVs.append_assoc tl b c]
      rfl

theorem PyKVs.insert_notmem : ∀ (acc : PyKVs) (k v : PyValue),
    (∀ e ∈ acc.toList, PyValue.beq k e.1 = false) →
    PyKVs.insert k v acc = PyKVs.append acc (PyKVs.cons k v PyKVs.nil)
  | .nil, _, _, _ => rfl
  | .cons k0 v0 tl, k, v, h => by
      have h0 : PyValue.beq k k0 = false := h (k0, v0) (List.mem_cons_self _ _)
      show (if PyValue.beq k k0 = true then PyKVs.cons k0 v tl
        else PyKVs.cons k0 v0 (PyKVs.insert k v tl)) = _
      rw [h0]
      simp only [Bool.false_eq_true, if_false]
      rw [PyKVs.insert_notmem tl k v
        (fun e he => h e (List.mem_cons_of_mem _ he))]
      rfl

theorem PyKVs.insert_length_le : ∀ (acc : PyKVs) (k v : PyValue),
    (PyKVs.insert k v acc).length ≤ acc.length + 1
  | .nil, _, _ => Nat.le_refl _
  | .cons k0 v0 tl, k, v => by
      show (if PyValue.beq k k0 = true then PyKVs.cons k0 v tl
        else PyKVs.cons k0 v0 (PyKVs.insert k v tl)).length ≤ _
      cases hb : PyValue.beq k k0
      · simp only [Bool.false_eq_true, if_false, PyKVs.length_cons]
        have := PyKVs.insert_length_le tl k v
        omega
      · simp only [if_true, PyKVs.length_cons]
        omega

theorem PyKVs.toList_ofList : ∀ l : List (PyValue × PyValue),
    (PyKVs.ofList l).toList = l := by
  intro l
  induction l with
  | nil => rfl
  | cons e tl ih =>
    show (e.1, e.2) :: (PyKVs.ofList tl).toList = e :: tl
    rw [ih]

theorem renderList_forall2 (p : Nat) :
    ∀ xs ys : PyList, renderList p xs = Except.ok ys →
      List.Forall₂ (fun a b => render_template p a = Except.ok b)
        xs.toList ys.toList
  | .nil, ys, h => by
      simp only [renderList] at h
      cases h
      exact List.Forall₂.nil
  | .cons v tl, ys, h => by
      cases hv : render_template p v with
      | error m =>
        simp only [renderList, hv, exceptBind_error] at h
        cases h
      | ok r =>
        cases htl : renderList p tl with
        | error m =>
          simp only [renderList, hv, htl, exceptBind_ok, exceptBind_error] at h
          cases h
        | ok rs =>
          simp only [renderList, hv, htl, exceptBind_ok, exceptPure] at h
          cases h
          exact List.Forall₂.cons hv (renderList_forall2 p tl rs htl)

theorem renderKVs_length_le (p : Nat) :
    ∀ (kvs acc out : PyKVs), renderKVs p acc kvs = Except.ok out →
      out.length ≤ acc.length + kvs.length
  | .nil, acc, out, h => by
      simp only [renderKVs] at h
      cases h
      simp [PyKVs.length]
  | .cons k v tl, acc, out, h => by
      cases hk : render_template p k with
      | error m =>
        simp only [renderKVs, hk, exceptBind_error] at h
        cases h
      | ok rk =>
        cases hv : render_template p v with
        | error m =>
          simp only [renderKVs, hk, hv, exceptBind_ok, exceptBind_error] at h
          cases h
        | ok rv =>
          simp only [renderKVs, hk, hv, exceptBind_ok] at h
          have hrec := renderKVs_length_le p tl (acc.insert rk rv) out h
          have hins := PyKVs.insert_length_le acc rk rv
          rw [PyKVs.length_cons]
          omega

theorem renderKVs_distinct (p : Nat) :
    ∀ (kvs : PyKVs) (rkvs : List (PyValue × PyValue)) (acc : PyKVs),
      List.Forall₂ (fun q r => render_template p q.1 = Except.ok r.1 ∧
        render_template p q.2 = Except.ok r.2) kvs.toList rkvs →
      List.Pairwise (fun a b => PyValue.beq b.1 a.1 = false) rkvs →
      (∀ r ∈ rkvs, ∀ e ∈ acc.toList, PyValue.beq r.1 e.1 = false) →
      renderKVs p acc kvs = Except.ok (PyKVs.append acc (PyKVs.ofList rkvs))
  | .nil, rkvs, acc, hf, _, _ => by
      cases hf
      rw [show PyKVs.ofList [] = PyKVs.nil from rfl, PyKVs.append_nil]
      rfl
  | .cons k v tl, rkvs, acc, hf, hp, hacc => by
      cases hf with
      | cons hr htl =>
        rename_i b rtl
        cases hp with
        | cons hhead hp2 =>
          have hstep : renderKVs p acc (PyKVs.cons k v tl) =
              renderKVs p (acc.insert b.1 b.2) tl := by
            simp only [renderKVs, hr.1, hr.2, exceptBind_ok]
          rw [hstep]
          rw [PyKVs.insert_notmem acc b.1 b.2
            (hacc b (List.mem_cons_self _ _))]
          have hacc2 : ∀ r ∈ rtl, ∀ e ∈ (PyKVs.append acc
              (PyKVs.cons b.1 b.2 PyKVs.nil)).toList, PyValue.beq r.1 e.1 = false := by
            intro r hr2 e he
            rw [PyKVs.toList_append,
              show (PyKVs.cons b.1 b.2 PyKVs.nil).toList = [(b.1, b.2)] from rfl] at he
            rcases List.mem_append.mp he with h1 | h2
            · exact hacc r (List.mem_cons_of_mem _ hr2) e h1
            · rw [List.mem_singleton.mp h2]
              exact hhead r hr2
          rw [renderKVs_distinct p tl rtl _ htl hp2 hacc2]
          rw [PyKVs.append_assoc]
          rfl

/-- C8 counterexample: mappings do not keep their key multiplicity under
rendering.  With port 8081, the dict with the two distinct keys "{port}"
and "8081" renders both keys to "8081"; the dict comprehension collapses
the two entries into one (the later value wins), so the rendered mapping
has 1 entry where the input had 2. -/
theorem C8_counterexample :
    render_template 8081 (PyValue.dict
        (PyKVs.cons (PyValue.str "{port}") (PyValue.str "a")
          (PyKVs.cons (PyValue.str "8081") (PyValue.str "b") PyKVs.nil))) =
      Except.ok (PyValue.dict
        (PyKVs.cons (PyValue.str "8081") (PyValue.str "b") PyKVs.nil)) ∧
    (PyKVs.cons (PyValue.str "{port}") (PyValue.str "a")
      (PyKVs.cons (PyValue.str "8081") (PyValue.str "b") PyKVs.nil)).length = 2 ∧
    (PyKVs.cons (PyValue.str "8081") (PyValue.str "b") PyKVs.nil).length = 1 :=
  ⟨rfl, rfl, rfl⟩

/-- C8 (amended): rendering substitutes the recognized parameter (`port`)
into every string; a sequence is rendered elementwise in order, preserving
its length; a mapping has every key and every value rendered, its entries
combined by rendered key in iteration order with later entries overwriting
earlier on collision — so the entry count never grows, and the mapping
structure (same multiplicity, same order, pointwise rendered) is preserved
exactly when the rendered keys are pairwise distinct. -/
theorem C8_render_structure :
    (∀ (p : Nat) (ts : List Tok), (∀ t ∈ ts, Tok.wf t) →
      formatPort p (String.mk (flattenToks ts)) =
        Except.ok (String.mk (renderToks p ts))) ∧
    (∀ (p : Nat) (xs ys : PyList), renderList p xs = Except.ok ys →
      List.Forall₂ (fun a b => render_template p a = Except.ok b)
        xs.toList ys.toList ∧
      ys.toList.length = xs.toList.length) ∧
    (∀ (p : Nat) (kvs acc out : PyKVs), renderKVs p acc kvs = Except.ok out →
      out.length ≤ acc.length + kvs.length) ∧
    (∀ (p : Nat) (kvs : PyKVs) (rkvs : List (PyValue × PyValue)),
      List.Forall₂ (fun q r => render_template p q.1 = Except.ok r.1 ∧
        render_template p q.2 = Except.ok r.2) kvs.toList rkvs →
      List.Pairwise (fun a b => PyValue.beq b.1 a.1 = false) rkvs →
      render_template p (PyValue.dict kvs) =
        Except.ok (PyValue.dict (PyKVs.ofList rkvs)) ∧
      rkvs.length = kvs.length) := by
  refine ⟨?_, ?_, ?_, ?_⟩
  · exact fun p ts h => formatPort_flattenToks p ts h
  · intro p xs ys h
    have hf := renderList_forall2 p xs ys h
    exact ⟨hf, (List.Forall₂.length_eq hf).symm⟩
  · exact fun p kvs acc out h => renderKVs_length_le p kvs acc out h
  · intro p kvs rkvs hf hp
    constructor
    · show PyValue.dict <$> renderKVs p PyKVs.nil kvs = _
      rw [renderKVs_distinct p kvs rkvs PyKVs.nil hf hp
        (fun r _ e he => absurd he (List.not_mem_nil e))]
      rfl
    · have hlen := List.Forall₂.length_eq hf
      show rkvs.length = kvs.toList.length
      exact hlen.symm

/-- Witness for C8 (amended) at a one-token string and a one-entry
mapping. -/
theorem C8_render_structure_witness :
    ((∀ t ∈ [Tok.lit 'x', Tok.port], Tok.wf t) ∧
      formatPort 7 (String.mk (flattenToks [Tok.lit 'x', Tok.port])) =
        Except.ok (String.mk (renderToks 7 [Tok.lit 'x', Tok.port]))) ∧
    (render_template 7 (PyValue.dict
        (PyKVs.cons (PyValue.str "A") (PyValue.str "{port}") PyKVs.nil)) =
      Except.ok (PyValue.dict
        (PyKVs.cons (PyValue.str "A") (PyValue.str "7") PyKVs.nil)) ∧
      ([(PyValue.str "A", PyValue.str "7")] : List (PyValue × PyValue)).length =
        (PyKVs.cons (PyValue.str "A") (PyValue.str "{port}") PyKVs.nil).length) := by
  constructor
  · exact ⟨by decide, C8_render_structure.1 7 [Tok.lit 'x', Tok.port] (by decide)⟩
  · have h := C8_render_structure.2.2.2 7
      (PyKVs.cons (PyValue.str "A") (PyValue.str "{port}") PyKVs.nil)
      [(PyValue.str "A", PyValue.str "7")]
      (List.Forall₂.cons ⟨rfl, rfl⟩ List.Forall₂.nil)
      (List.Pairwise.cons (fun a ha => absurd ha (List.not_mem_nil a))
        List.Pairwise.nil)
    exact ⟨h.1, h.2⟩

theorem renderList_tokens (p : Nat) :
    ∀ tss : List (List Tok), (∀ ts ∈ tss, ∀ t ∈ ts, Tok.wf t) →
      renderList p (PyList.ofList (tss.map fun ts =>
          PyValue.str (String.mk (flattenToks ts)))) =
        Except.ok (PyList.ofList (tss.map fun ts =>
          PyValue.str (String.mk (renderToks p ts)))) := by
  intro tss
  induction tss with
  | nil => intro _; rfl
  | cons ts tss ih =>
    intro h
    have h1 : ∀ t ∈ ts, Tok.wf t := h ts (List.mem_cons_self _ _)
    have h2 : ∀ us ∈ tss, ∀ t ∈ us, Tok.wf t :=
      fun us hus => h us (List.mem_cons_of_mem _ hus)
    show renderList p (PyList.cons (PyValue.str (String.mk (flattenToks ts)))
      (PyList.ofList (tss.map fun us => PyValue.str (String.mk (flattenToks us))))) = _
    simp only [renderList, render_template_str_tokens p ts h1, exceptBind_ok,
      ih h2, exceptPure]
    rfl

theorem forall2_tokens (p : Nat) :
    ∀ envts : List (List Tok × List Tok),
      (∀ q ∈ envts, (∀ t ∈ q.1, Tok.wf t) ∧ (∀ t ∈ q.2, Tok.wf t)) →
      List.Forall₂ (fun q r => render_template p q.1 = Except.ok r.1 ∧
          render_template p q.2 = Except.ok r.2)
        (PyKVs.ofList (envts.map fun q =>
          (PyValue.str (String.mk (flattenToks q.1)),
           PyValue.str (String.mk (flattenToks q.2))))).toList
        (envts.map fun q =>
          (PyValue.str (String.mk (renderToks p q.1)),
           PyValue.str (String.mk (renderToks p q.2)))) := by
  intro envts
  induction envts with
  | nil => intro _; exact List.Forall₂.nil
  | cons q envts ih =>
    intro h
    have hq := h q (List.mem_cons_self _ _)
    have hrest : ∀ r ∈ envts, (∀ t ∈ r.1, Tok.wf t) ∧ (∀ t ∈ r.2, Tok.wf t) :=
      fun r hr => h r (List.mem_cons_of_mem _ hr)
    exact List.Forall₂.cons
      ⟨render_template_str_tokens p q.1 hq.1, render_template_str_tokens p q.2 hq.2⟩
      (ih hrest)

/-- C4: rendering a command that is a list of well-formed template strings
(literal characters and the replacement field `port`, braces occurring
only inside the field) and an environment that is a mapping of such
template strings substitutes the decimal representation of the assigned
port for every `port` replacement field (`Tok.render` maps `Tok.port` to
the decimal digits of p): rendered command and environment are the
pointwise token renderings, structure preserved.  The environment keys are
assumed pairwise distinct after rendering, as rendered keys that collide
would be merged by the dict comprehension. -/
theorem C4_port_substitution (p : Nat) (tss : List (List Tok))
    (envts : List (List Tok × List Tok))
    (hcmd : ∀ ts ∈ tss, ∀ t ∈ ts, Tok.wf t)
    (henv : ∀ q ∈ envts, (∀ t ∈ q.1, Tok.wf t) ∧ (∀ t ∈ q.2, Tok.wf t))
    (hkeys : List.Pairwise
      (fun q1 q2 => renderToks p q2.1 ≠ renderToks p q1.1) envts) :
    get_cmd p (PyValue.list (PyList.ofList (tss.map fun ts =>
        PyValue.str (String.mk (flattenToks ts))))) =
      Except.ok (PyValue.list (PyList.ofList (tss.map fun ts =>
        PyValue.str (String.mk (renderToks p ts))))) ∧
    get_env p (PyValue.dict (PyKVs.ofList (envts.map fun q =>
        (PyValue.str (String.mk (flattenToks q.1)),
         PyValue.str (String.mk (flattenToks q.2)))))) =
      Except.ok (PyValue.dict (PyKVs.ofList (envts.map fun q =>
        (PyValue.str (String.mk (renderToks p q.1)),
         PyValue.str (String.mk (renderToks p q.2)))))) := by
  constructor
  · show PyValue.list <$> renderList p _ = _
    rw [renderList_tokens p tss hcmd]
    rfl
  · have hf := forall2_tokens p envts henv
    have hpair : List.Pairwise (fun a b => PyValue.beq b.1 a.1 = false)
        (envts.map fun q =>
          (PyValue.str (String.mk (renderToks p q.1)),
           PyValue.str (String.mk (renderToks p q.2)))) := by
      rw [List.pairwise_map]
      refine hkeys.imp ?_
      intro q1 q2 hne
      show (String.mk (renderToks p q2.1) == String.mk (renderToks p q1.1)) = false
      rw [beq_eq_false_iff_ne]
      intro hEq
      exact hne (congrArg String.data hEq)
    show PyValue.dict <$> renderKVs p PyKVs.nil _ = _
    rw [renderKVs_distinct p _ _ PyKVs.nil hf hpair
      (fun r _ e he => absurd he (List.not_mem_nil e))]
    rfl

/-- Witness for C4 at port 8081, the command
["app", "-p", "\x7bport\x7d"] and the environment
\x7b"PORT": "\x7bport\x7d"\x7d. -/
theorem C4_port_substitution_witness :
    (∀ ts ∈ [[Tok.lit 'a'], [Tok.lit '-', Tok.lit 'p', Tok.port]],
      ∀ t ∈ ts, Tok.wf t) ∧
    (∀ q ∈ [([Tok.lit 'P'], [Tok.port])],
      (∀ t ∈ q.1, Tok.wf t) ∧ (∀ t ∈ q.2, Tok.wf t)) ∧
    List.Pairwise (fun q1 q2 => renderToks 8081 q2.1 ≠ renderToks 8081 q1.1)
      [([Tok.lit 'P'], [Tok.port])] ∧
    (get_cmd 8081 (PyValue.list (PyList.ofList
        ([[Tok.lit 'a'], [Tok.lit '-', Tok.lit 'p', Tok.port]].map fun ts =>
          PyValue.str (String.mk (flattenToks ts))))) =
      Except.ok (PyValue.list (PyList.ofList
        ([[Tok.lit 'a'], [Tok.lit '-', Tok.lit 'p', Tok.port]].map fun ts =>
          PyValue.str (String.mk (renderToks 8081 ts))))) ∧
    get_env 8081 (PyValue.dict (PyKVs.ofList
        ([([Tok.lit 'P'], [Tok.port])].map fun q =>
          (PyValue.str (String.mk (flattenToks q.1)),
           PyValue.str (String.mk (flattenToks q.2)))))) =
      Except.ok (PyValue.dict (PyKVs.ofList
        ([([Tok.lit 'P'], [Tok.port])].map fun q =>
          (PyValue.str (String.mk (renderToks 8081 q.1)),
           PyValue.str (String.mk (renderToks 8081 q.2))))))) :=
  ⟨by decide, by decide,
   List.Pairwise.cons (fun a ha => absurd ha (List.not_mem_nil a))
     List.Pairwise.nil,
   C4_port_substitution 8081
     [[Tok.lit 'a'], [Tok.lit '-', Tok.lit 'p', Tok.port]]
     [([Tok.lit 'P'], [Tok.port])]
     (by decide) (by decide)
     (List.Pairwise.cons (fun a ha => absurd ha (List.not_mem_nil a))
       List.Pairwise.nil)⟩

theorem dropWhile_slash_eq (l : List Char) (h : l.head? ≠ some '/') :
    l.dropWhile (fun c => c = '/') = l := by
  cases l with
  | nil => rfl
  | cons c t =>
    have hc : ¬(c = '/') := by
      intro hEq
      exact h (by rw [show (c :: t).head? = some c from rfl, hEq])
    simp [List.dropWhile_cons, hc]

theorem stripSlashes_eq (s : String) (h1 : s.data.head? ≠ some '/')
    (h2 : s.data.getLast? ≠ some '/') : stripSlashes s = s := by
  apply String.ext
  show ((s.data.dropWhile (fun c => c = '/')).reverse.dropWhile
    (fun c => c = '/')).reverse = s.data
  rw [dropWhile_slash_eq s.data h1,
    dropWhile_slash_eq s.data.reverse (by rw [List.head?_reverse]; exact h2),
    List.reverse_reverse]

theorem stripSlashes_slash_append (b0 : String)
    (h1 : b0.data.head? ≠ some '/') (h2 : b0.data.getLast? ≠ some '/') :
    stripSlashes ("/" ++ b0) = b0 := by
  apply String.ext
  show ((("/" ++ b0).data.dropWhile (fun c => c = '/')).reverse.dropWhile
    (fun c => c = '/')).reverse = b0.data
  have hd : ("/" ++ b0).data = '/' :: b0.data := by
    rw [String.data_append]
    rfl
  rw [hd]
  rw [show List.dropWhile (fun c => decide (c = '/')) ('/' :: b0.data) =
    List.dropWhile (fun c => decide (c = '/')) b0.data from by
      simp [List.dropWhile_cons]]
  rw [dropWhile_slash_eq b0.data h1,
    dropWhile_slash_eq b0.data.reverse (by rw [List.head?_reverse]; exact h2),
    List.reverse_reverse]

theorem startsWithSlash_slash_append (b0 : String) :
    startsWithSlash ("/" ++ b0) = true := by
  unfold startsWithSlash
  rw [show ("/" ++ b0).data = '/' :: b0.data from by rw [String.data_append]; rfl]
  rfl

theorem endsWithSlash_false (s : String) (h : s.data.getLast? ≠ some '/') :
    endsWithSlash s = false := by
  unfold endsWithSlash
  cases hg : s.data.getLast? with
  | none => rfl
  | some c =>
    have hc : ¬(c = '/') := by
      intro hEq
      exact h (by rw [hg, hEq])
    simp [hc]

theorem url_path_join_shapes (b0 nm : String)
    (hb : b0 ≠ "") (hn : nm ≠ "")
    (hb1 : b0.data.head? ≠ some '/') (hb2 : b0.data.getLast? ≠ some '/')
    (hn1 : nm.data.head? ≠ some '/') (hn2 : nm.data.getLast? ≠ some '/') :
    url_path_join ["/" ++ b0, nm, "(.*)"] = "/" ++ b0 ++ "/" ++ nm ++ "/(.*)" ∧
    url_path_join ["/" ++ b0, nm] = "/" ++ b0 ++ "/" ++ nm := by
  have e1 : stripSlashes ("/" ++ b0) = b0 := stripSlashes_slash_append b0 hb1 hb2
  have e2 : stripSlashes nm = nm := stripSlashes_eq nm hn1 hn2
  have e3 : stripSlashes "(.*)" = "(.*)" := rfl
  have e4 : startsWithSlash ("/" ++ b0) = true := startsWithSlash_slash_append b0
  have e5 : endsWithSlash "(.*)" = false := rfl
  have e6 : endsWithSlash nm = false := endsWithSlash_false nm hn2
  have d0 : ("/" : String).data = ['/'] := rfl
  have d1 : ("/(.*)" : String).data = '/' :: ("(.*)" : String).data := rfl
  constructor
  · unfold url_path_join
    simp only [List.head?_cons, List.getLast?_cons_cons, List.getLast?_singleton,
      List.map_cons, List.map_nil, e1, e2, e3, e4, e5, List.filter_cons]
    simp [hb, hn, joinSlash]
    have hne : "/" ++ (b0 ++ "/" ++ (nm ++ "/" ++ "(.*)")) ≠ "//" := by
      intro hEq
      have hlen := congrArg (fun s => s.data.length) hEq
      simp [String.data_append] at hlen
      omega
    rw [if_neg hne]
    apply String.ext
    simp [String.data_append, d0, d1]
  · unfold url_path_join
    simp only [List.head?_cons, List.getLast?_cons_cons, List.getLast?_singleton,
      List.map_cons, List.map_nil, e1, e2, e4, e6, List.filter_cons]
    simp [hb, hn, joinSlash]
    have hne : "/" ++ (b0 ++ "/" ++ nm) ≠ "//" := by
      intro hEq
      have hlen := congrArg (fun s => s.data.length) hEq
      simp [String.data_append] at hlen
      have hb0 : b0.length ≠ 0 := by
        intro h0
        exact hb (String.ext (List.length_eq_zero.mp h0))
      omega
    rw [if_neg hne]
    apply String.ext
    simp [String.data_append, d0]

theorem flatten_map_escape_id (l : List Char)
    (h : ∀ c ∈ l, c ∉ reSpecialChars) :
    (l.map (fun c => if c ∈ reSpecialChars then ['\\', c] else [c])).flatten = l := by
  induction l with
  | nil => rfl
  | cons c t ih =>
    have hc : c ∉ reSpecialChars := h c (List.mem_cons_self _ _)
    have ht : ∀ d ∈ t, d ∉ reSpecialChars :=
      fun d hd => h d (List.mem_cons_of_mem _ hd)
    simp only [List.map_cons, List.flatten_cons, if_neg hc, ih ht]
    rfl

theorem reEscape_id (s : String) (h : ∀ c ∈ s.data, c ∉ reSpecialChars) :
    reEscape s = s := by
  apply String.ext
  show (s.data.map (fun c => if c ∈ reSpecialChars then ['\\', c] else [c])).flatten
    = s.data
  exact flatten_map_escape_id s.data h

theorem make_handlers_aux_get (b : String) :
    ∀ (sps : List ServerProcess) (c i : Nat) (sp : ServerProcess),
      sps.get? i = some sp →
      (make_handlers_aux b c sps).1.get? (2 * i) =
        some { pattern := url_path_join [b, sp.name, "(.*)"],
               kind := HandlerKind.superviseProxy sp.name (c + i) } ∧
      (make_handlers_aux b c sps).1.get? (2 * i + 1) =
        some { pattern := url_path_join [b, sp.name],
               kind := HandlerKind.addSlash } := by
  intro sps
  induction sps with
  | nil => intro c i sp h; simp at h
  | cons sp0 rest ih =>
    intro c i sp h
    cases i with
    | zero =>
      have h0 : sp0 = sp := by simpa using h
      subst h0
      exact ⟨rfl, rfl⟩
    | succ j =>
      have h2 : rest.get? j = some sp := by simpa using h
      have hrec := ih (c + 1) j sp h2
      have hc : c + 1 + j = c + (j + 1) := by omega
      rw [hc] at hrec
      constructor
      · rw [show 2 * (j + 1) = 2 * j + 1 + 1 from by omega]
        show ((make_handlers_aux b (c + 1) rest).1).get? (2 * j) = _
        exact hrec.1
      · rw [show 2 * (j + 1) + 1 = (2 * j + 1) + 1 + 1 from by omega]
        show ((make_handlers_aux b (c + 1) rest).1).get? (2 * j + 1) = _
        exact hrec.2

/-- C9 counterexample: the standalone server's redirect for the bare base
URL does not target the base URL followed by a slash when the base URL
contains a regex-special character.  `_create_app` computes
`base_url = re.escape(self.base_url)` and then uses that escaped string
not only in the route patterns but also inside the redirect target
`url = base_url + /`: for base URL "/a+b" the registered redirect target
is the escaped "/a\x5c+b/", not "/a+b/". -/
theorem C9_counterexample :
    (create_app_routes "/a+b" 0).head? =
      some { pattern := "^/a\\+b$", kind := HandlerKind.redirect "/a\\+b/" } ∧
    ("/a\\+b/" : String) ≠ "/a+b/" :=
  ⟨rfl, by decide⟩

/-- C9 (amended): `make_handlers` registers, per server process and in
order, the pattern `ujoin(base_url, name, (.*))` bound to the
supervise-and-proxy handler followed by the bare `ujoin(base_url, name)`
bound to the add-slash redirect handler, for a total of exactly twice as
many entries as there are server processes; for a base URL of the form
/b0 (b0 nonempty, no leading or trailing slash) and a nonempty slash-free
service name these patterns are literally <base>/<name>/(.*) and
<base>/<name>, and the add-slash handler redirects the bare route to
<base>/<name>/.  The standalone server registers first a redirect route
from the bare regex-escaped base URL pattern to the regex-escaped base URL
followed by a slash, which equals the base URL followed by a slash
exactly when the base URL contains no regex-special characters. -/
theorem C9_two_routes_and_redirects :
    (∀ (base_url : String) (sps : List ServerProcess),
      (make_handlers base_url sps).length = 2 * sps.length) ∧
    (∀ (base_url : String) (sps : List ServerProcess) (i : Nat)
        (sp : ServerProcess),
      sps.get? i = some sp →
      (make_handlers base_url sps).get? (2 * i) =
        some { pattern := url_path_join [base_url, sp.name, "(.*)"],
               kind := HandlerKind.superviseProxy sp.name i } ∧
      (make_handlers base_url sps).get? (2 * i + 1) =
        some { pattern := url_path_join [base_url, sp.name],
               kind := HandlerKind.addSlash }) ∧
    (∀ b0 nm : String, b0 ≠ "" → nm ≠ "" →
      b0.data.head? ≠ some '/' → b0.data.getLast? ≠ some '/' →
      nm.data.head? ≠ some '/' → nm.data.getLast? ≠ some '/' →
      url_path_join ["/" ++ b0, nm, "(.*)"] = "/" ++ b0 ++ "/" ++ nm ++ "/(.*)" ∧
      url_path_join ["/" ++ b0, nm] = "/" ++ b0 ++ "/" ++ nm ∧
      addSlashRedirectTarget (url_path_join ["/" ++ b0, nm]) =
        "/" ++ b0 ++ "/" ++ nm ++ "/") ∧
    (∀ (b : String) (st : Nat),
      (create_app_routes b st).get? 0 =
        some { pattern := "^" ++ reEscape b ++ "$",
               kind := HandlerKind.redirect (reEscape b ++ "/") } ∧
      ((∀ c ∈ b.data, c ∉ reSpecialChars) → reEscape b = b)) := by
  refine ⟨?_, ?_, ?_, ?_⟩
  · exact fun base_url sps => make_handlers_aux_length base_url sps 0
  · intro base_url sps i sp h
    have hrec := make_handlers_aux_get base_url sps 0 i sp h
    rw [Nat.zero_add] at hrec
    exact hrec
  · intro b0 nm hb hn hb1 hb2 hn1 hn2
    have hs := url_path_join_shapes b0 nm hb hn hb1 hb2 hn1 hn2
    refine ⟨hs.1, hs.2, ?_⟩
    show url_path_join ["/" ++ b0, nm] ++ "/" = _
    rw [hs.2]
  · intro b st
    exact ⟨rfl, fun h => reEscape_id b h⟩

/-- Witness for C9 (amended) at base URL "/hub" and service name
"svc". -/
theorem C9_two_routes_and_redirects_witness :
    (([{ name := "svc", command := PyValue.str "c",
         environment := PyValue.dict PyKVs.nil,
         launcher_entry := none }] : List ServerProcess).get? 0 =
      some { name := "svc", command := PyValue.str "c",
             environment := PyValue.dict PyKVs.nil, launcher_entry := none } ∧
      (make_handlers "/hub"
        [{ name := "svc", command := PyValue.str "c",
           environment := PyValue.dict PyKVs.nil,
           launcher_entry := none }]).get? 0 =
        some { pattern := url_path_join ["/hub", "svc", "(.*)"],
               kind := HandlerKind.superviseProxy "svc" 0 } ∧
      (make_handlers "/hub"
        [{ name := "svc", command := PyValue.str "c",
           environment := PyValue.dict PyKVs.nil,
           launcher_entry := none }]).get? 1 =
        some { pattern := url_path_join ["/hub", "svc"],
               kind := HandlerKind.addSlash }) ∧
    (("hub" : String) ≠ "" ∧
      url_path_join ["/" ++ "hub", "svc", "(.*)"] =
        "/" ++ "hub" ++ "/" ++ "svc" ++ "/(.*)" ∧
      url_path_join ["/" ++ "hub", "svc"] = "/" ++ "hub" ++ "/" ++ "svc" ∧
      addSlashRedirectTarget (url_path_join ["/" ++ "hub", "svc"]) =
        "/" ++ "hub" ++ "/" ++ "svc" ++ "/") ∧
    ((∀ c ∈ ("/hub" : String).data, c ∉ reSpecialChars) ∧
      reEscape "/hub" = "/hub") := by
  refine ⟨?_, ⟨by decide, ?_⟩, ⟨by decide, ?_⟩⟩
  · have h := C9_two_routes_and_redirects.2.1 "/hub"
      [{ name := "svc", command := PyValue.str "c",
         environment := PyValue.dict PyKVs.nil, launcher_entry := none }]
      0
      { name := "svc", command := PyValue.str "c",
        environment := PyValue.dict PyKVs.nil, launcher_entry := none }
      rfl
    exact ⟨rfl, h.1, h.2⟩
  · exact C9_two_routes_and_redirects.2.2.1 "hub" "svc"
      (by decide) (by decide) (by decide) (by decide) (by decide) (by decide)
  · exact (C9_two_routes_and_redirects.2.2.2 "/hub" 0).2 (by decide)
